import Mathlib

/-!
Verification development for the TRUSTSHIFT repository: a shallow embedding
of the backend core (identity registry, workplace bindings, shift lifecycle,
token codec, risk scorer, verification/audit path) and of the frontend API
client and widgets, with theorems settling the specification claims.

The backend application code (app/routers, app/risk_engine.py, ...) is not
present in the repository snapshot; only its documentation
(src/backend/readme.md) and the frontend callers are. Definitions for the
backend core are therefore modelled from the specification and the backend
readme, and are marked as such in their doc comments. Frontend definitions
(api client, ShiftControl, Register, RiskBadge) are translated directly from
the JSX sources.
-/

/-- Modelled from the spec: user roles (worker, customer, supervisor, police),
src/backend/readme.md Users collection. -/
inductive Role
  | worker
  | customer
  | supervisor
  | police
  deriving DecidableEq

/-- Modelled from the spec: risk buckets green, yellow, red. -/
inductive RiskState
  | green
  | yellow
  | red
  deriving DecidableEq

/-- Modelled from the spec: error taxonomy of section 7. -/
inductive ApiError
  | NotFound
  | WrongRole
  | Conflict
  | NotBound
  | WorkplaceMismatch
  | AlreadyEnded
  | Forbidden
  deriving DecidableEq

/-- Modelled from the spec: a registered identity (users collection of
src/backend/readme.md); timestamps are naturals (seconds). -/
structure UserRec where
  uuid : String
  role : Role
  name : String
  phone : String
  created_at : Nat
  deriving DecidableEq

/-- Modelled from the spec: a WorkplaceBinding row (workplace_bindings
collection); uuid is the worker uuid, as in src/backend/readme.md. -/
structure BindingRec where
  uuid : String
  workplace : String
  location : String
  supervisor_id : String
  active : Bool
  created_at : Nat
  deriving DecidableEq

/-- Modelled from the spec: a Shift row (shifts collection); endTime = none
means the shift is currently active; stt is the issued token string. -/
structure ShiftRec where
  shift_id : String
  uuid : String
  start : Nat
  endTime : Option Nat
  stt : String
  risk_state : RiskState
  workplace : String
  supervisor_id : String
  deriving DecidableEq

/-- Modelled from the spec: a VerificationRecord (verifications collection):
worker uuid, scanning party uuid, timestamp. -/
structure VerificationRec where
  worker_uuid : String
  customer_uuid : String
  time : Nat
  deriving DecidableEq

/-- Modelled from the spec: the persisted store, the single shared mutable
resource (section 5), holding the four collections. -/
structure Store where
  users : List UserRec
  bindings : List BindingRec
  shifts : List ShiftRec
  verifications : List VerificationRec
  deriving DecidableEq

/-! ## TokenCodec

Modelled from the spec, section 4.3: encode serializes the TokenPayload
fields (shift id, worker uuid, workplace, shift start, issuance time) into
an opaque transportable string and decode rejects structurally invalid
input. The concrete base64-of-JSON wire format of the readme is a transport
detail; it is modelled here as an injective length-prefixed field
serialization with an executable decoder, which has the same contract:
an opaque string from which decode reproduces the payload exactly, and
which fails cleanly (returns none) on malformed input. -/

/-- Decimal digit to its character. -/
def digitChar (d : Nat) : Char :=
  if d = 0 then '0' else if d = 1 then '1' else if d = 2 then '2'
  else if d = 3 then '3' else if d = 4 then '4' else if d = 5 then '5'
  else if d = 6 then '6' else if d = 7 then '7' else if d = 8 then '8' else '9'

/-- Decimal rendering of a natural, most significant digit first; fuel-based
structural recursion so that it evaluates in the kernel. -/
def natCharsGo : Nat → Nat → List Char
  | 0, _ => []
  | fuel + 1, n => if n = 0 then [] else natCharsGo fuel (n / 10) ++ [digitChar (n % 10)]

/-- Decimal rendering of a natural number. -/
def natChars (n : Nat) : List Char :=
  if n = 0 then [digitChar 0] else natCharsGo (n + 1) n

/-- Is the character a decimal digit. -/
def isDigitCh (c : Char) : Bool := 48 ≤ c.toNat && c.toNat ≤ 57

/-- Value of a most-significant-first digit string. -/
def digitsVal (cs : List Char) : Nat := cs.foldl (fun a c => a * 10 + (c.toNat - 48)) 0

/-- Parse a nonempty run of digits terminated by a colon; returns the value
and the remainder. -/
def parseNatCh (cs : List Char) : Option (Nat × List Char) :=
  match cs.takeWhile isDigitCh, cs.dropWhile isDigitCh with
  | [], _ => none
  | ds, c :: rest => if c = ':' then some (digitsVal ds, rest) else none
  | _, [] => none

/-- Length-prefixed encoding of one string field. -/
def encFieldCh (s : List Char) : List Char := natChars s.length ++ ':' :: s

/-- Decode one length-prefixed string field. -/
def decFieldCh (cs : List Char) : Option (List Char × List Char) :=
  match parseNatCh cs with
  | none => none
  | some (n, rest) => if n ≤ rest.length then some (rest.take n, rest.drop n) else none

/-- Modelled from the spec: the TokenPayload (section 3 and the STT format of
src/backend/readme.md): shift id, worker uuid, workplace, shift start
timestamp, issuance timestamp. -/
structure TokenPayload where
  shift_id : String
  worker_uuid : String
  workplace : String
  start_time : Nat
  issued_at : Nat
  deriving DecidableEq

/-- Serialized characters of a token payload. -/
def encodeChars (p : TokenPayload) : List Char :=
  encFieldCh p.shift_id.data ++
    (encFieldCh p.worker_uuid.data ++
      (encFieldCh p.workplace.data ++
        (natChars p.start_time ++ ':' :: (natChars p.issued_at ++ ':' :: []))))

/-- Decode the serialized characters of a token. -/
def decodeChars (cs : List Char) : Option TokenPayload :=
  match decFieldCh cs with
  | none => none
  | some (sid, r1) =>
    match decFieldCh r1 with
    | none => none
    | some (wid, r2) =>
      match decFieldCh r2 with
      | none => none
      | some (wp, r3) =>
        match parseNatCh r3 with
        | none => none
        | some (st, r4) =>
          match parseNatCh r4 with
          | none => none
          | some (iss, r5) =>
            match r5 with
            | [] => some ⟨String.mk sid, String.mk wid, String.mk wp, st, iss⟩
            | _ => none

/-- Modelled from the spec: TokenCodec.encode, producing the opaque token
string for a payload. -/
def sttEncode (p : TokenPayload) : String := String.mk (encodeChars p)

/-- Modelled from the spec: TokenCodec.decode; none models MalformedError. -/
def sttDecode (t : String) : Option TokenPayload := decodeChars t.data

/-! ## RiskScorer

Modelled from the spec, section 4.2, and the algorithm description of
src/backend/readme.md (risk_engine.py): four additive, independently capped
sub-scores; bucketing 0-30 green, 31-60 yellow, 61-100 red. -/

/-- Modelled from the spec: the designated high-risk (late-night) window,
on the hour of day of an epoch-second timestamp. -/
def isHighRiskTime (now : Nat) : Bool :=
  now / 3600 % 24 < 6 || 22 ≤ now / 3600 % 24

/-- Modelled from the spec: the flagged high-risk location zones. -/
def highRiskZones : List String := ["sector_18_delhi", "high_crime_zone"]

/-- Is the location zone flagged high risk. -/
def isHighRiskZone (zone : String) : Bool := highRiskZones.contains zone

/-- Time sub-score: 30 inside the high-risk window, else 0. -/
def timeRisk (now : Nat) : Nat := if isHighRiskTime now then 30 else 0

/-- Zone sub-score: 25 for a flagged zone, else 0. -/
def zoneRisk (zone : String) : Nat := if isHighRiskZone zone then 25 else 0

/-- Complaint sub-score: 10 per complaint, saturating at 30. -/
def complaintRisk (complaintCount : Nat) : Nat := min 30 (complaintCount * 10)

/-- Account-age sub-score: 15 if the account is younger than 7 days, else 0. -/
def accountAgeRisk (createdAt now : Nat) : Nat :=
  if now - createdAt < 7 * 86400 then 15 else 0

/-- Modelled from the spec: risk_engine.calculate_risk_score, the pure
risk-scoring function. -/
def calculateRiskScore (w : UserRec) (now : Nat) (zone : String) (complaintCount : Nat) : Nat :=
  timeRisk now + zoneRisk zone + complaintRisk complaintCount + accountAgeRisk w.created_at now

/-- Modelled from the spec: risk_engine.get_risk_state, bucketing a score. -/
def getRiskState (score : Nat) : RiskState :=
  if score ≤ 30 then RiskState.green else if score ≤ 60 then RiskState.yellow else RiskState.red

/-! ## Store lookups -/

/-- Look up an identity by uuid (users collection). -/
def findUser (st : Store) (u : String) : Option UserRec :=
  st.users.find? (fun x => x.uuid == u)

/-- Modelled from the spec: WorkplaceBindingManager.activeBindingFor. -/
def activeBindingFor (st : Store) (w : String) : Option BindingRec :=
  st.bindings.find? (fun b => b.uuid == w && b.active)

/-- Find the worker's shift with end = null, if any. -/
def findActiveShift (st : Store) (w : String) : Option ShiftRec :=
  st.shifts.find? (fun s => s.uuid == w && s.endTime.isNone)

/-- Find a shift by its shift id. -/
def findShift (st : Store) (sid : String) : Option ShiftRec :=
  st.shifts.find? (fun s => s.shift_id == sid)

/-- All shifts of a worker with end = null. -/
def activeShiftsFor (st : Store) (w : String) : List ShiftRec :=
  st.shifts.filter (fun s => s.uuid == w && s.endTime.isNone)

/-- All bindings of a worker with active = true. -/
def activeBindingsFor (st : Store) (w : String) : List BindingRec :=
  st.bindings.filter (fun b => b.uuid == w && b.active)

/-- At most one shift with end = null per worker id. -/
def shiftInvariant (st : Store) : Prop := ∀ w, (activeShiftsFor st w).length ≤ 1

/-- At most one binding with active = true per worker id. -/
def bindingInvariant (st : Store) : Prop := ∀ w, (activeBindingsFor st w).length ≤ 1

/-! ## Operations -/

/-- Modelled from the spec: WorkplaceBindingManager.bind (POST
/api/workplace/bind): NotFound if worker or supervisor is missing, WrongRole
on a role mismatch, Conflict if an active binding already exists, else
create the binding timestamped now. The store is returned unchanged on every
error. -/
def bindWorkplace (st : Store) (workerId workplace location supervisorId : String)
    (now : Nat) : Except ApiError BindingRec × Store :=
  match findUser st workerId, findUser st supervisorId with
  | none, _ => (Except.error ApiError.NotFound, st)
  | some _, none => (Except.error ApiError.NotFound, st)
  | some w, some sup =>
    if w.role = Role.worker ∧ sup.role = Role.supervisor then
      match activeBindingFor st workerId with
      | some _ => (Except.error ApiError.Conflict, st)
      | none =>
        (Except.ok ⟨workerId, workplace, location, supervisorId, true, now⟩,
          { st with bindings := st.bindings ++ [⟨workerId, workplace, location, supervisorId, true, now⟩] })
    else (Except.error ApiError.WrongRole, st)

/-- The shift record created by a successful start. -/
def mkShift (freshId workerId workplace supervisorId : String) (now : Nat)
    (risk : RiskState) : ShiftRec :=
  ⟨freshId, workerId, now, none, sttEncode ⟨freshId, workerId, workplace, now, now⟩,
    risk, workplace, supervisorId⟩

/-- Modelled from the spec: ShiftLifecycleManager.start (POST
/api/shift/start): NotFound if worker or supervisor is missing, NotBound
without an active binding, WorkplaceMismatch if the binding disagrees with
the request, Conflict if a shift with end = null already exists; otherwise
score the risk, encode the token once, and persist the fresh shift. The
whole check-then-act sequence is one atomic step (section 5 serializes
start per worker id). The store is returned unchanged on every error. -/
def startShift (st : Store) (workerId supervisorId workplace : String) (now : Nat)
    (freshId : String) (complaintCount : Nat) : Except ApiError ShiftRec × Store :=
  match findUser st workerId, findUser st supervisorId with
  | none, _ => (Except.error ApiError.NotFound, st)
  | some _, none => (Except.error ApiError.NotFound, st)
  | some w, some _ =>
    match activeBindingFor st workerId with
    | none => (Except.error ApiError.NotBound, st)
    | some b =>
      if b.workplace = workplace ∧ b.supervisor_id = supervisorId then
        match findActiveShift st workerId with
        | some _ => (Except.error ApiError.Conflict, st)
        | none =>
          (Except.ok (mkShift freshId workerId workplace supervisorId now
              (getRiskState (calculateRiskScore w now b.location complaintCount))),
            { st with shifts := st.shifts ++ [mkShift freshId workerId workplace supervisorId now
              (getRiskState (calculateRiskScore w now b.location complaintCount))] })
      else (Except.error ApiError.WorkplaceMismatch, st)

/-- Shape of GET /api/shift/status responses (src/backend/readme.md). -/
structure StatusResponse where
  active : Bool
  shift_id : Option String
  stt : Option String
  risk_state : Option RiskState
  start_time : Option Nat
  workplace : Option String
  deriving DecidableEq

/-- Modelled from the spec: ShiftLifecycleManager.status (GET
/api/shift/status), a pure read of the stored active shift; it reads the
stored token and never regenerates it. -/
def shiftStatus (st : Store) (workerId : String) : StatusResponse :=
  match findActiveShift st workerId with
  | some s => ⟨true, some s.shift_id, some s.stt, some s.risk_state, some s.start, some s.workplace⟩
  | none => ⟨false, none, none, none, none, none⟩

/-- Set the end timestamp on the matching shift, identity elsewhere. -/
def endUpdate (shiftId : String) (now : Nat) (x : ShiftRec) : ShiftRec :=
  if x.shift_id == shiftId then { x with endTime := some now } else x

/-- Modelled from the spec: ShiftLifecycleManager.end (POST /api/shift/end):
NotFound for an unknown shift id, AlreadyEnded if end is already set,
Forbidden on a supervisor mismatch, else set end = now. The store is
returned unchanged on every error. -/
def endShift (st : Store) (shiftId supervisorId : String) (now : Nat) :
    Except ApiError (String × Nat) × Store :=
  match findShift st shiftId with
  | none => (Except.error ApiError.NotFound, st)
  | some s =>
    if s.endTime.isSome then (Except.error ApiError.AlreadyEnded, st)
    else if s.supervisor_id = supervisorId then
      (Except.ok (shiftId, now), { st with shifts := st.shifts.map (endUpdate shiftId now) })
    else (Except.error ApiError.Forbidden, st)

/-- Verification outcomes; malformed, unknown and ended are first-class
negative results, not errors (spec section 7). -/
inductive VerifyReason
  | ok
  | malformed
  | unknown
  | ended
  deriving DecidableEq

/-- Shape of POST /api/verify/worker responses (src/backend/readme.md). -/
structure VerifyResult where
  verified : Bool
  reason : VerifyReason
  worker_name : Option String
  employer : Option String
  shift_active : Bool
  risk_color : Option RiskState
  deriving DecidableEq

/-- Modelled from the spec: VerificationService.verify (POST
/api/verify/worker): decode the token (malformed tokens are rejected and
not logged), resolve the shift by the payload's shift id (unknown tokens
are not logged), then append a VerificationRecord(workerId, callerId, now)
even when the shift has ended, answering verified:false reason ended for a
stale token and the role-scoped projection on success. -/
def verifyWorker (st : Store) (token : String) (callerId : String) (now : Nat) :
    VerifyResult × Store :=
  match sttDecode token with
  | none => (⟨false, VerifyReason.malformed, none, none, false, none⟩, st)
  | some p =>
    match findShift st p.shift_id with
    | none => (⟨false, VerifyReason.unknown, none, none, false, none⟩, st)
    | some s =>
      if s.endTime.isSome then
        (⟨false, VerifyReason.ended, none, none, false, none⟩,
          { st with verifications := st.verifications ++ [⟨s.uuid, callerId, now⟩] })
      else
        (⟨true, VerifyReason.ok, (findUser st s.uuid).map (fun u => u.name),
            some s.workplace, true, some s.risk_state⟩,
          { st with verifications := st.verifications ++ [⟨s.uuid, callerId, now⟩] })

/-! ## Frontend: api client, ShiftControl, Register, RiskBadge

These definitions are translated directly from the JSX sources in src/. -/

/-- A completed HTTP response as the client sees it: a status code and a
parsed JSON body, here an association list of string fields (a missing key
models an absent / undefined JSON field). -/
structure HttpResponse where
  status : Nat
  body : List (String × String)
  deriving DecidableEq

/-- From src/api/client.js (src/unnamed/part_000): apiGet runs fetch and
returns res.json() without inspecting res.status or res.ok. -/
def apiGet (res : HttpResponse) : List (String × String) := res.body

/-- From src/api/client.js (src/unnamed/part_000): apiPost runs fetch and
returns res.json() without inspecting res.status or res.ok. -/
def apiPost (res : HttpResponse) : List (String × String) := res.body

/-- Field access on a parsed JSON body; none models undefined. -/
def jsonField (body : List (String × String)) (k : String) : Option String :=
  (body.find? (fun kv => kv.1 == k)).map (fun kv => kv.2)

/-- Observable outcome of Register.submit: what is written to localStorage
under uuid and role, and the alert message shown. -/
structure RegisterOutcome where
  storedUuid : Option String
  storedRole : Option String
  alertMsg : String
  deriving DecidableEq

/-- From Register.submit (src/frontend/src/pages/supervisor/ShiftControl.jsx
concatenation, lines 61-66): await apiPost, then unconditionally store
res.uuid and res.role and alert Registered successfully. -/
def registerSubmit (res : HttpResponse) : RegisterOutcome :=
  ⟨jsonField (apiPost res) "uuid", jsonField (apiPost res) "role", "Registered successfully"⟩

/-- From ShiftControl (src/frontend/src/pages/supervisor/ShiftControl.jsx,
Start Shift button): the JSON body posted to /shift/start is the object
with the single field uuid. -/
def shiftControlStartBody (uuid : String) : List (String × String) := [("uuid", uuid)]

/-- From ShiftControl (src/frontend/src/pages/supervisor/ShiftControl.jsx,
End Shift button): the JSON body posted to /shift/end is the object with
the single field uuid. -/
def shiftControlEndBody (uuid : String) : List (String × String) := [("uuid", uuid)]

/-- Required request fields of POST /api/shift/start per
src/backend/readme.md (worker_uuid, supervisor_id, workplace). -/
def shiftStartRequiredFields : List String := ["worker_uuid", "supervisor_id", "workplace"]

/-- Required request fields of POST /api/shift/end per
src/backend/readme.md (shift_id, supervisor_id). -/
def shiftEndRequiredFields : List String := ["shift_id", "supervisor_id"]

/-- From RiskBadge (src/frontend/src/components/ProfileCard.jsx
concatenation): the css class is looked up in the green/yellow/red map with
bg-slate-400 as the JS undefined fallback; none models a null risk prop. -/
def riskBadgeClass (risk : Option String) : String :=
  match risk with
  | none => "bg-slate-400"
  | some s =>
    if s = "green" then "bg-green-600"
    else if s = "yellow" then "bg-amber-500"
    else if s = "red" then "bg-red-600"
    else "bg-slate-400"

/-- Uppercase one ascii character, as JS toUpperCase does on ascii input. -/
def charUp (c : Char) : Char :=
  if 97 ≤ c.toNat ∧ c.toNat ≤ 122 then Char.ofNat (c.toNat - 32) else c

/-- JS String.prototype.toUpperCase restricted to ascii strings. -/
def jsToUpper (s : String) : String := String.mk (s.data.map charUp)

/-- From RiskBadge: the label is risk?.toUpperCase() with UNKNOWN as the JS
falsy fallback, so null (and the empty string) give UNKNOWN and any other
string gives its uppercasing. -/
def riskBadgeLabel (risk : Option String) : String :=
  match risk with
  | none => "UNKNOWN"
  | some s => if s = "" then "UNKNOWN" else jsToUpper s

def wUser : UserRec := ⟨"w1", Role.worker, "Asha", "p1", 0⟩

def sUser : UserRec := ⟨"s1", Role.supervisor, "Mgr", "p2", 0⟩

def bRec : BindingRec := ⟨"w1", "WP", "Z", "s1", true, 1⟩

/-- A store with a bound worker and no shifts. -/
def baseStore : Store := ⟨[wUser, sUser], [bRec], [], []⟩

def demoNow : Nat := 8683200

def demoShift : ShiftRec := mkShift "sh1" "w1" "WP" "s1" demoNow RiskState.green

/-- The store after a successful start on baseStore. -/
def demoStore2 : Store := { baseStore with shifts := [demoShift] }

def activeShiftRec : ShiftRec :=
  ⟨"sh9", "w1", 5, none, "tok9", RiskState.green, "WP", "s1"⟩

/-- A store holding one active shift. -/
def storeActive : Store := ⟨[wUser, sUser], [bRec], [activeShiftRec], []⟩

def endedShiftRec : ShiftRec :=
  ⟨"sh1", "w1", 5, some 9, sttEncode ⟨"sh1", "w1", "WP", 5, 5⟩, RiskState.green, "WP", "s1"⟩

/-- A store holding one ended shift whose token is still circulating. -/
def storeEnded : Store := ⟨[wUser, sUser], [bRec], [endedShiftRec], []⟩

/-- Scenario timestamp for C4: day 10 at 23:00, inside the late-night
high-risk window. -/
def scenarioNow : Nat := 10 * 86400 + 23 * 3600

/-- Scenario worker for C4: account created two days before scenarioNow. -/
def scenarioWorker : UserRec := ⟨"w3", Role.worker, "Neo", "p3", scenarioNow - 2 * 86400⟩

/-! ### Codec round-trip lemmas -/

theorem toNat_digitChar (d : Nat) (hd : d < 10) : (digitChar d).toNat = 48 + d := by
  interval_cases d <;> decide

theorem isDigitCh_digitChar (d : Nat) (hd : d < 10) : isDigitCh (digitChar d) = true := by
  interval_cases d <;> decide

theorem natCharsGo_all_digits :
    ∀ (fuel n : Nat), ∀ c ∈ natCharsGo fuel n, isDigitCh c = true := by
  intro fuel
  induction fuel with
  | zero => intro n c hc; simp [natCharsGo] at hc
  | succ fuel ih =>
    intro n c hc
    unfold natCharsGo at hc
    split at hc
    · simp at hc
    · rw [List.mem_append] at hc
      rcases hc with hc | hc
      · exact ih _ c hc
      · simp at hc
        subst hc
        exact isDigitCh_digitChar _ (Nat.mod_lt _ (by omega))

theorem natChars_all_digits (n : Nat) : ∀ c ∈ natChars n, isDigitCh c = true := by
  intro c hc
  unfold natChars at hc
  split at hc
  · simp at hc; subst hc; decide
  · exact natCharsGo_all_digits _ _ c hc

theorem natCharsGo_ne_nil (fuel n : Nat) (hn : n ≠ 0) (hf : fuel ≠ 0) :
    natCharsGo fuel n ≠ [] := by
  cases fuel with
  | zero => exact absurd rfl hf
  | succ fuel =>
    unfold natCharsGo
    rw [if_neg hn]
    simp

theorem natChars_ne_nil (n : Nat) : natChars n ≠ [] := by
  unfold natChars
  split
  · simp
  · exact natCharsGo_ne_nil _ _ (by assumption) (by omega)

theorem digitsVal_append_one (l : List Char) (c : Char) :
    digitsVal (l ++ [c]) = digitsVal l * 10 + (c.toNat - 48) := by
  unfold digitsVal
  rw [List.foldl_append]
  rfl

theorem digitsVal_natCharsGo :
    ∀ (fuel n : Nat), n ≤ fuel → n ≠ 0 → digitsVal (natCharsGo fuel n) = n := by
  intro fuel
  induction fuel with
  | zero => intro n hle hne; omega
  | succ fuel ih =>
    intro n hle hne
    unfold natCharsGo
    rw [if_neg hne, digitsVal_append_one,
      toNat_digitChar _ (Nat.mod_lt _ (by omega))]
    by_cases h10 : n / 10 = 0
    · have : digitsVal (natCharsGo fuel 0) = 0 := by
        cases fuel <;> simp [natCharsGo, digitsVal]
      rw [h10, this]
      omega
    · rw [ih (n / 10) (by omega) h10]
      omega

theorem digitsVal_natChars (n : Nat) : digitsVal (natChars n) = n := by
  unfold natChars
  by_cases h : n = 0
  · rw [if_pos h, h]; decide
  · rw [if_neg h]
    exact digitsVal_natCharsGo (n + 1) n (by omega) h

theorem takeWhile_all_append {p : Char → Bool} :
    ∀ (l : List Char) (c : Char) (r : List Char), (∀ x ∈ l, p x = true) → p c = false →
      (l ++ c :: r).takeWhile p = l ∧ (l ++ c :: r).dropWhile p = c :: r := by
  intro l
  induction l with
  | nil =>
    intro c r _ hc
    constructor
    · simp [List.takeWhile_cons, hc]
    · simp [List.dropWhile_cons, hc]
  | cons a l ih =>
    intro c r hall hc
    have ha : p a = true := hall a (by simp)
    obtain ⟨h1, h2⟩ := ih c r (fun x hx => hall x (by simp [hx])) hc
    constructor
    · rw [List.cons_append, List.takeWhile_cons, ha]
      simp [h1]
    · rw [List.cons_append, List.dropWhile_cons, ha]
      simp [h2]

theorem parseNatCh_spec (n : Nat) (rest : List Char) :
    parseNatCh (natChars n ++ ':' :: rest) = some (n, rest) := by
  obtain ⟨ht, hd⟩ :=
    takeWhile_all_append (natChars n) ':' rest (natChars_all_digits n) (by decide)
  unfold parseNatCh
  rw [ht, hd]
  cases hnc : natChars n with
  | nil => exact absurd hnc (natChars_ne_nil n)
  | cons a l =>
    show (if ':' = ':' then some (digitsVal (a :: l), rest) else none) = some (n, rest)
    rw [if_pos rfl, ← hnc, digitsVal_natChars]

theorem take_len_append (s t : List Char) : (s ++ t).take s.length = s := by
  induction s with
  | nil => rfl
  | cons a s ih => simp [ih]

theorem drop_len_append (s t : List Char) : (s ++ t).drop s.length = t := by
  induction s with
  | nil => rfl
  | cons a s ih => simp [ih]

theorem decFieldCh_spec (s tail : List Char) :
    decFieldCh (encFieldCh s ++ tail) = some (s, tail) := by
  unfold decFieldCh encFieldCh
  rw [List.append_assoc, List.cons_append, parseNatCh_spec]
  show (if s.length ≤ (s ++ tail).length then
      some ((s ++ tail).take s.length, (s ++ tail).drop s.length) else none) = some (s, tail)
  rw [if_pos (by rw [List.length_append]; exact Nat.le_add_right _ _),
    take_len_append, drop_len_append]

theorem decodeChars_encodeChars (p : TokenPayload) :
    decodeChars (encodeChars p) = some p := by
  unfold encodeChars decodeChars
  simp only [decFieldCh_spec, parseNatCh_spec]

theorem sttDecode_sttEncode (p : TokenPayload) : sttDecode (sttEncode p) = some p :=
  decodeChars_encodeChars p

/-! ## Lemmas about the store operations -/

theorem find?_append_none {α : Type} {p : α → Bool} :
    ∀ (l1 l2 : List α), l1.find? p = none → (l1 ++ l2).find? p = l2.find? p := by
  intro l1 l2
  induction l1 with
  | nil => intro _; rfl
  | cons a l ih =>
    intro h
    cases hpa : p a with
    | true => rw [List.find?_cons_of_pos _ hpa] at h; exact absurd h (by simp)
    | false =>
      rw [List.find?_cons_of_neg _ (by simp [hpa])] at h
      rw [List.cons_append, List.find?_cons_of_neg _ (by simp [hpa])]
      exact ih h

theorem filter_eq_nil_of_find?_none {α : Type} {p : α → Bool} :
    ∀ (l : List α), l.find? p = none → l.filter p = [] := by
  intro l
  induction l with
  | nil => intro _; rfl
  | cons a l ih =>
    intro h
    cases hpa : p a with
    | true => rw [List.find?_cons_of_pos _ hpa] at h; exact absurd h (by simp)
    | false =>
      rw [List.find?_cons_of_neg _ (by simp [hpa])] at h
      rw [List.filter_cons_of_neg (by simp [hpa])]
      exact ih h

theorem findActiveShift_append_one (st : Store) (w : String) (sh : ShiftRec)
    (h : findActiveShift st w = none) (hu : sh.uuid = w) (he : sh.endTime = none) :
    findActiveShift { st with shifts := st.shifts ++ [sh] } w = some sh := by
  show (st.shifts ++ [sh]).find? _ = some sh
  rw [find?_append_none _ _ h]
  simp [List.find?_cons, hu, he]

/-- Inversion of a successful start: every guard passed, the worker had no
active shift, and the new store is the old one with the fresh shift
appended. -/
theorem startShift_ok (st : Store) (w sup wp : String) (now : Nat) (fid : String)
    (c : Nat) (sh : ShiftRec) (st2 : Store)
    (h : startShift st w sup wp now fid c = (Except.ok sh, st2)) :
    ∃ u v b, findUser st w = some u ∧ findUser st sup = some v ∧
      activeBindingFor st w = some b ∧ b.workplace = wp ∧ b.supervisor_id = sup ∧
      findActiveShift st w = none ∧
      sh = mkShift fid w wp sup now
        (getRiskState (calculateRiskScore u now b.location c)) ∧
      st2 = { st with shifts := st.shifts ++ [sh] } := by
  unfold startShift at h
  split at h
  · simp at h
  · simp at h
  · rename_i u v hu hv
    split at h
    · simp at h
    · rename_i b hb
      split at h
      · rename_i hcond
        split at h
        · simp at h
        · rename_i hnone
          injection h with h1 h2
          injection h1 with h1
          subst h1
          exact ⟨u, v, b, hu, hv, hb, hcond.1, hcond.2, hnone, rfl, h2.symm⟩
      · simp at h

theorem length_filter_le_one {α : Type} (p : α → Bool) (a : α) :
    (List.filter p [a]).length ≤ 1 := by
  cases hpa : p a <;> simp [List.filter, hpa]

/-- Appending one active shift for a worker who had none preserves the
at-most-one-active-shift invariant. -/
theorem shiftInvariant_append (st : Store) (w : String) (sh : ShiftRec)
    (hnone : findActiveShift st w = none) (hu : sh.uuid = w)
    (hinv : shiftInvariant st) :
    shiftInvariant { st with shifts := st.shifts ++ [sh] } := by
  intro wq
  show ((st.shifts ++ [sh]).filter _).length ≤ 1
  rw [List.filter_append]
  by_cases hw : wq = w
  · subst hw
    rw [filter_eq_nil_of_find?_none _ hnone]
    simp only [List.nil_append]
    exact length_filter_le_one _ _
  · have hmk : (sh.uuid == wq) = false := by
      rw [hu]
      simp only [beq_eq_false_iff_ne]
      exact fun heq => hw heq.symm
    rw [show List.filter (fun s => s.uuid == wq && s.endTime.isNone) [sh] = [] by
      simp [List.filter, hmk]]
    rw [List.append_nil]
    exact hinv wq

/-- C1: at most one shift with end = null per worker id. Part one: start
answers Conflict, leaving the store unchanged, whenever a shift with
end = null already exists for the worker (and the earlier guards pass).
Part two: start preserves the at-most-one-active-shift invariant. Part
three: of two start calls for the same worker that would each succeed from
the same store, running them serialized per worker id (the atomicity the
spec mandates), exactly one succeeds and the other observes Conflict. -/
theorem c1_at_most_one_active_shift :
    (∀ st w sup wp now fid c u v b sh,
      findUser st w = some u → findUser st sup = some v →
      activeBindingFor st w = some b → b.workplace = wp → b.supervisor_id = sup →
      findActiveShift st w = some sh →
      startShift st w sup wp now fid c = (Except.error ApiError.Conflict, st)) ∧
    (∀ st w sup wp now fid c, shiftInvariant st →
      shiftInvariant (startShift st w sup wp now fid c).2) ∧
    (∀ st w sup wp now fid c sup2 wp2 now2 fid2 c2 sh st2 sh2 st3,
      startShift st w sup wp now fid c = (Except.ok sh, st2) →
      startShift st w sup2 wp2 now2 fid2 c2 = (Except.ok sh2, st3) →
      startShift st2 w sup2 wp2 now2 fid2 c2 = (Except.error ApiError.Conflict, st2)) := by
  refine ⟨?_, ?_, ?_⟩
  · intro st w sup wp now fid c u v b sh hu hv hb hwp hsup hsh
    subst hwp; subst hsup
    unfold startShift
    simp only [hu, hv, hb, hsh]
    simp
  · intro st w sup wp now fid c hinv
    unfold startShift
    split
    · exact hinv
    · exact hinv
    · split
      · exact hinv
      · rename_i b hb
        split
        · split
          · exact hinv
          · rename_i hnone
            exact shiftInvariant_append st w _ hnone rfl hinv
        · exact hinv
  · intro st w sup wp now fid c sup2 wp2 now2 fid2 c2 sh st2 sh2 st3 h1 h2
    obtain ⟨u, v, b, hu, hv, hb, hwp, hsup, hnone, hsh, hst2⟩ :=
      startShift_ok _ _ _ _ _ _ _ _ _ h1
    obtain ⟨u2, v2, b2, hu2, hv2, hb2, hwp2, hsup2, hnone2, hsh2, hst3⟩ :=
      startShift_ok _ _ _ _ _ _ _ _ _ h2
    subst hst2
    have hFind : findActiveShift { st with shifts := st.shifts ++ [sh] } w = some sh :=
      findActiveShift_append_one st w sh hnone (by rw [hsh]; rfl) (by rw [hsh]; rfl)
    subst hwp2; subst hsup2
    unfold startShift
    simp only [show findUser { st with shifts := st.shifts ++ [sh] } w = some u2 from hu2,
      show findUser { st with shifts := st.shifts ++ [sh] } b2.supervisor_id = some v2 from hv2,
      show activeBindingFor { st with shifts := st.shifts ++ [sh] } w = some b2 from hb2,
      hFind]
    simp

theorem c1_witness :
    startShift demoStore2 "w1" "s1" "WP" demoNow "sh2" 0 =
      (Except.error ApiError.Conflict, demoStore2) :=
  c1_at_most_one_active_shift.1 demoStore2 "w1" "s1" "WP" demoNow "sh2" 0 wUser sUser bRec
    demoShift rfl rfl rfl rfl rfl rfl

/-- C3: decoding the token encoded from a shift's fields yields a payload
whose shift id, worker id, workplace and start time equal the shift's
exactly; in particular this holds for the token stored in every shift that
start creates. -/
theorem c3_token_roundtrip :
    (∀ (s : ShiftRec) (issuedAt : Nat),
      sttDecode (sttEncode ⟨s.shift_id, s.uuid, s.workplace, s.start, issuedAt⟩) =
        some ⟨s.shift_id, s.uuid, s.workplace, s.start, issuedAt⟩) ∧
    (∀ fid w wp sup now risk,
      sttDecode (mkShift fid w wp sup now risk).stt = some ⟨fid, w, wp, now, now⟩) :=
  ⟨fun _ _ => sttDecode_sttEncode _, fun _ _ _ _ _ _ => sttDecode_sttEncode _⟩

/-- C5: after a successful start, status for that worker reads the stored
shift and answers active with exactly the shift id, token, risk bucket,
start time and workplace that start returned. -/
theorem c5_status_returns_start_token :
    ∀ st w sup wp now fid c sh st2,
      startShift st w sup wp now fid c = (Except.ok sh, st2) →
      shiftStatus st2 w =
        ⟨true, some sh.shift_id, some sh.stt, some sh.risk_state, some sh.start,
          some sh.workplace⟩ := by
  intro st w sup wp now fid c sh st2 h
  obtain ⟨u, v, b, hu, hv, hb, hwp, hsup, hnone, hsh, hst2⟩ :=
    startShift_ok _ _ _ _ _ _ _ _ _ h
  subst hst2
  unfold shiftStatus
  rw [findActiveShift_append_one st w sh hnone (by rw [hsh]; rfl) (by rw [hsh]; rfl)]

theorem c5_witness :
    shiftStatus demoStore2 "w1" =
      ⟨true, some demoShift.shift_id, some demoShift.stt, some demoShift.risk_state,
        some demoShift.start, some demoShift.workplace⟩ :=
  c5_status_returns_start_token baseStore "w1" "s1" "WP" demoNow "sh1" 0 demoShift
    demoStore2 rfl

/-- Appending one active binding for a worker who had none preserves the
at-most-one-active-binding invariant. -/
theorem bindingInvariant_append (st : Store) (w : String) (b : BindingRec)
    (hnone : activeBindingFor st w = none) (hu : b.uuid = w) (_hact : b.active = true)
    (hinv : bindingInvariant st) :
    bindingInvariant { st with bindings := st.bindings ++ [b] } := by
  intro wq
  show ((st.bindings ++ [b]).filter _).length ≤ 1
  rw [List.filter_append]
  by_cases hw : wq = w
  · subst hw
    rw [filter_eq_nil_of_find?_none _ hnone]
    simp only [List.nil_append]
    exact length_filter_le_one _ _
  · have hmk : (b.uuid == wq) = false := by
      rw [hu]
      simp only [beq_eq_false_iff_ne]
      exact fun heq => hw heq.symm
    rw [show List.filter (fun x => x.uuid == wq && x.active) [b] = [] by
      simp [List.filter, hmk]]
    rw [List.append_nil]
    exact hinv wq

/-- C6: at most one binding with active = true per worker id. Part one:
bind answers Conflict, leaving the stored bindings unchanged, whenever an
active binding already exists for the worker (and the identity and role
guards pass). Part two: bind preserves the at-most-one-active-binding
invariant. -/
theorem c6_at_most_one_active_binding :
    (∀ st w wp loc sup now u v b,
      findUser st w = some u → findUser st sup = some v →
      u.role = Role.worker → v.role = Role.supervisor →
      activeBindingFor st w = some b →
      bindWorkplace st w wp loc sup now = (Except.error ApiError.Conflict, st)) ∧
    (∀ st w wp loc sup now, bindingInvariant st →
      bindingInvariant (bindWorkplace st w wp loc sup now).2) := by
  constructor
  · intro st w wp loc sup now u v b hu hv hru hrv hb
    unfold bindWorkplace
    simp only [hu, hv, hb]
    simp [hru, hrv]
  · intro st w wp loc sup now hinv
    unfold bindWorkplace
    split
    · exact hinv
    · exact hinv
    · split
      · split
        · exact hinv
        · rename_i hnone
          exact bindingInvariant_append st w _ hnone rfl rfl hinv
      · exact hinv

theorem c6_witness :
    bindWorkplace baseStore "w1" "WP2" "L2" "s1" 5 =
      (Except.error ApiError.Conflict, baseStore) :=
  c6_at_most_one_active_binding.1 baseStore "w1" "WP2" "L2" "s1" 5 wUser sUser bRec
    rfl rfl rfl rfl rfl

theorem endUpdate_shift_id (sid : String) (now : Nat) (x : ShiftRec) :
    (endUpdate sid now x).shift_id = x.shift_id := by
  unfold endUpdate
  split <;> rfl

theorem find?_cons_pos {α : Type} (p : α → Bool) (a : α) (l : List α) (h : p a = true) :
    (a :: l).find? p = some a := by
  simp [List.find?, h]

theorem find?_cons_neg {α : Type} (p : α → Bool) (a : α) (l : List α) (h : p a = false) :
    (a :: l).find? p = l.find? p := by
  simp [List.find?, h]

theorem findShift_map_endUpdate (l : List ShiftRec) (sid : String) (now : Nat) :
    (l.map (endUpdate sid now)).find? (fun s => s.shift_id == sid) =
      (l.find? (fun s => s.shift_id == sid)).map (endUpdate sid now) := by
  induction l with
  | nil => rfl
  | cons a l ih =>
    rw [List.map_cons]
    cases hpa : (a.shift_id == sid) with
    | true =>
      have hpa2 : ((endUpdate sid now a).shift_id == sid) = true := by
        rw [endUpdate_shift_id]; exact hpa
      rw [find?_cons_pos (fun (s : ShiftRec) => s.shift_id == sid) _ _ hpa2,
        find?_cons_pos (fun (s : ShiftRec) => s.shift_id == sid) _ _ hpa]
      rfl
    | false =>
      have hpa2 : ((endUpdate sid now a).shift_id == sid) = false := by
        rw [endUpdate_shift_id]; exact hpa
      rw [find?_cons_neg (fun (s : ShiftRec) => s.shift_id == sid) _ _ hpa2,
        find?_cons_neg (fun (s : ShiftRec) => s.shift_id == sid) _ _ hpa]
      exact ih

/-- C7: ending a shift twice is an error, not a no-op: the first end sets
the end timestamp to now, and the second end on the same shift id fails
AlreadyEnded with the store (hence the stored end timestamp) unchanged. -/
theorem c7_end_twice :
    ∀ st sid sup now sup2 now2 s,
      findShift st sid = some s → s.endTime = none → s.supervisor_id = sup →
      (endShift st sid sup now).1 = Except.ok (sid, now) ∧
      findShift (endShift st sid sup now).2 sid = some { s with endTime := some now } ∧
      endShift (endShift st sid sup now).2 sid sup2 now2 =
        (Except.error ApiError.AlreadyEnded, (endShift st sid sup now).2) := by
  intro st sid sup now sup2 now2 s h1 h2 h3
  subst h3
  have h1l : List.find? (fun x => x.shift_id == sid) st.shifts = some s := h1
  have hps := List.find?_some h1l
  have hend : endShift st sid s.supervisor_id now =
      (Except.ok (sid, now), { st with shifts := st.shifts.map (endUpdate sid now) }) := by
    unfold endShift
    simp only [h1, h2]
    simp
  have hfind2 : findShift { st with shifts := st.shifts.map (endUpdate sid now) } sid =
      some { s with endTime := some now } := by
    show (st.shifts.map (endUpdate sid now)).find? _ = _
    rw [findShift_map_endUpdate, h1l]
    simp [endUpdate, hps]
  refine ⟨by rw [hend], by rw [hend]; exact hfind2, ?_⟩
  rw [hend]
  unfold endShift
  simp only [hfind2]
  simp

theorem c7_witness :
    (endShift storeActive "sh9" "s1" 8).1 = Except.ok ("sh9", 8) ∧
    findShift (endShift storeActive "sh9" "s1" 8).2 "sh9" =
      some { activeShiftRec with endTime := some 8 } ∧
    endShift (endShift storeActive "sh9" "s1" 8).2 "sh9" "s1" 9 =
      (Except.error ApiError.AlreadyEnded, (endShift storeActive "sh9" "s1" 8).2) :=
  c7_end_twice storeActive "sh9" "s1" 8 "s1" 9 activeShiftRec rfl rfl rfl

/-- C2: verify on a structurally valid token that resolves to an already
ended shift answers verified false with reason ended and still appends the
VerificationRecord(workerId, callerId, now); on a malformed or unknown
token it appends nothing and leaves the store unchanged. -/
theorem c2_verify_audit :
    (∀ st token caller now p s,
      sttDecode token = some p → findShift st p.shift_id = some s →
      s.endTime.isSome = true →
      (verifyWorker st token caller now).1.verified = false ∧
      (verifyWorker st token caller now).1.reason = VerifyReason.ended ∧
      (verifyWorker st token caller now).2 =
        { st with verifications := st.verifications ++ [⟨s.uuid, caller, now⟩] }) ∧
    (∀ st token caller now, sttDecode token = none →
      verifyWorker st token caller now =
        (⟨false, VerifyReason.malformed, none, none, false, none⟩, st)) ∧
    (∀ st token caller now p, sttDecode token = some p → findShift st p.shift_id = none →
      verifyWorker st token caller now =
        (⟨false, VerifyReason.unknown, none, none, false, none⟩, st)) := by
  refine ⟨?_, ?_, ?_⟩
  · intro st token caller now p s hp hs he
    unfold verifyWorker
    simp only [hp, hs, he]
    simp
  · intro st token caller now hmal
    unfold verifyWorker
    simp only [hmal]
  · intro st token caller now p hp hs
    unfold verifyWorker
    simp only [hp, hs]

theorem c2_witness :
    ((verifyWorker storeEnded endedShiftRec.stt "c9" 20).1.verified = false ∧
      (verifyWorker storeEnded endedShiftRec.stt "c9" 20).1.reason = VerifyReason.ended ∧
      (verifyWorker storeEnded endedShiftRec.stt "c9" 20).2 =
        { storeEnded with verifications := storeEnded.verifications ++ [⟨"w1", "c9", 20⟩] }) ∧
    verifyWorker storeEnded "not-a-token" "c9" 20 =
      (⟨false, VerifyReason.malformed, none, none, false, none⟩, storeEnded) :=
  ⟨c2_verify_audit.1 storeEnded endedShiftRec.stt "c9" 20 ⟨"sh1", "w1", "WP", 5, 5⟩
      endedShiftRec (sttDecode_sttEncode _) rfl rfl,
    c2_verify_audit.2.1 storeEnded "not-a-token" "c9" 20 rfl⟩

/-- C4: the risk score is the sum of four independently capped sub-scores
(30 time, 25 zone, min 30 complaints, 15 account age), so it never exceeds
100; bucketing sends 0-30 to green, 31-60 to yellow and 61-100 to red; and
the scenario (3 complaints, high-risk time, high-risk zone, 2-day-old
account) scores exactly 100 and lands in red. -/
theorem c4_risk_score :
    (∀ w now zone c,
      timeRisk now ≤ 30 ∧ zoneRisk zone ≤ 25 ∧ complaintRisk c ≤ 30 ∧
      accountAgeRisk w.created_at now ≤ 15 ∧
      calculateRiskScore w now zone c =
        timeRisk now + zoneRisk zone + complaintRisk c + accountAgeRisk w.created_at now ∧
      calculateRiskScore w now zone c ≤ 100) ∧
    (∀ s, (s ≤ 30 → getRiskState s = RiskState.green) ∧
      (31 ≤ s → s ≤ 60 → getRiskState s = RiskState.yellow) ∧
      (61 ≤ s → getRiskState s = RiskState.red)) ∧
    (calculateRiskScore scenarioWorker scenarioNow "sector_18_delhi" 3 = 100 ∧
      getRiskState (calculateRiskScore scenarioWorker scenarioNow "sector_18_delhi" 3) =
        RiskState.red) := by
  refine ⟨?_, ?_, by decide⟩
  · intro w now zone c
    have h1 : timeRisk now ≤ 30 := by unfold timeRisk; split <;> omega
    have h2 : zoneRisk zone ≤ 25 := by unfold zoneRisk; split <;> omega
    have h3 : complaintRisk c ≤ 30 := by unfold complaintRisk; omega
    have h4 : accountAgeRisk w.created_at now ≤ 15 := by
      unfold accountAgeRisk; split <;> omega
    refine ⟨h1, h2, h3, h4, rfl, ?_⟩
    unfold calculateRiskScore
    omega
  · intro s
    refine ⟨fun h => ?_, fun hl hu => ?_, fun h => ?_⟩
    · unfold getRiskState
      rw [if_pos h]
    · unfold getRiskState
      rw [if_neg (by omega), if_pos hu]
    · unfold getRiskState
      rw [if_neg (by omega), if_neg (by omega)]

theorem c4_witness :
    getRiskState 20 = RiskState.green ∧ getRiskState 45 = RiskState.yellow ∧
    getRiskState 100 = RiskState.red ∧ calculateRiskScore wUser 946800 "Z" 0 ≤ 100 :=
  ⟨(c4_risk_score.2.1 20).1 (by omega),
    (c4_risk_score.2.1 45).2.1 (by omega) (by omega),
    (c4_risk_score.2.1 100).2.2 (by omega),
    (c4_risk_score.1 wUser 946800 "Z" 0).2.2.2.2.2⟩

/-- C8: the supervisor ShiftControl page posts only the field uuid to both
/shift/start and /shift/end; every field the documented Start operation
requires (worker_uuid, supervisor_id, workplace) and the documented End
operation requires (shift_id, supervisor_id) is absent from the posted
bodies. -/
theorem c8_shiftcontrol_misses_required_fields :
    (shiftControlStartBody "w1").map Prod.fst = ["uuid"] ∧
    ¬ "worker_uuid" ∈ (shiftControlStartBody "w1").map Prod.fst ∧
    ¬ "supervisor_id" ∈ (shiftControlStartBody "w1").map Prod.fst ∧
    ¬ "workplace" ∈ (shiftControlStartBody "w1").map Prod.fst ∧
    (shiftControlEndBody "w1").map Prod.fst = ["uuid"] ∧
    ¬ "shift_id" ∈ (shiftControlEndBody "w1").map Prod.fst ∧
    ¬ "supervisor_id" ∈ (shiftControlEndBody "w1").map Prod.fst ∧
    shiftStartRequiredFields = ["worker_uuid", "supervisor_id", "workplace"] ∧
    shiftEndRequiredFields = ["shift_id", "supervisor_id"] := by
  decide

/-- C9: the api client resolves with the parsed body without inspecting the
status code, so responses with equal bodies are indistinguishable to the
caller whatever their statuses; and Register.submit stores the uuid field
of whatever body came back and reports Registered successfully even when
the body carries no uuid. -/
theorem c9_client_ignores_status :
    (∀ r1 r2 : HttpResponse, r1.body = r2.body →
      apiGet r1 = apiGet r2 ∧ apiPost r1 = apiPost r2) ∧
    (∀ status body, registerSubmit ⟨status, body⟩ =
      ⟨jsonField body "uuid", jsonField body "role", "Registered successfully"⟩) ∧
    (∀ status body, jsonField body "uuid" = none →
      (registerSubmit ⟨status, body⟩).storedUuid = none ∧
      (registerSubmit ⟨status, body⟩).alertMsg = "Registered successfully") := by
  refine ⟨fun r1 r2 h => ⟨?_, ?_⟩, fun status body => rfl, fun status body h => ⟨?_, rfl⟩⟩
  · unfold apiGet
    rw [h]
  · unfold apiPost
    rw [h]
  · show jsonField body "uuid" = none
    exact h

theorem c9_witness :
    apiPost ⟨409, [("detail", "Phone already registered")]⟩ =
      apiPost ⟨200, [("detail", "Phone already registered")]⟩ ∧
    (registerSubmit ⟨409, [("detail", "Phone already registered")]⟩).storedUuid = none ∧
    (registerSubmit ⟨409, [("detail", "Phone already registered")]⟩).alertMsg =
      "Registered successfully" :=
  ⟨(c9_client_ignores_status.1 ⟨409, [("detail", "Phone already registered")]⟩
      ⟨200, [("detail", "Phone already registered")]⟩ rfl).2,
    (c9_client_ignores_status.2.2 409 [("detail", "Phone already registered")] rfl).1,
    (c9_client_ignores_status.2.2 409 [("detail", "Phone already registered")] rfl).2⟩

/-- C10 counterexample: for the non-null unknown risk value purple,
RiskBadge renders the label PURPLE (the uppercased input), not the claimed
fallback label UNKNOWN; the style is the neutral one. -/
theorem c10_counterexample :
    riskBadgeLabel (some "purple") = "PURPLE" ∧
    ¬ riskBadgeLabel (some "purple") = "UNKNOWN" ∧
    riskBadgeClass (some "purple") = "bg-slate-400" := by
  decide

/-- C10 amended: RiskBadge is total: any risk value outside green, yellow
and red gets the neutral bg-slate-400 style; the label is UNKNOWN exactly
for the null (or empty-string) risk, including the null risk_state the
status endpoint returns when no shift is active, and is the uppercased
value for any other unknown string. -/
theorem c10_riskbadge_total :
    (∀ risk, risk ≠ some "green" → risk ≠ some "yellow" → risk ≠ some "red" →
      riskBadgeClass risk = "bg-slate-400") ∧
    riskBadgeLabel none = "UNKNOWN" ∧
    riskBadgeLabel (some "") = "UNKNOWN" ∧
    (∀ s, s ≠ "" → riskBadgeLabel (some s) = jsToUpper s) ∧
    (∀ st w, findActiveShift st w = none → (shiftStatus st w).risk_state = none) := by
  refine ⟨?_, rfl, rfl, fun s hs => ?_, fun st w h => ?_⟩
  · intro risk h1 h2 h3
    match risk with
    | none => rfl
    | some s =>
      show (if s = "green" then "bg-green-600"
        else if s = "yellow" then "bg-amber-500"
        else if s = "red" then "bg-red-600" else "bg-slate-400") = "bg-slate-400"
      rw [if_neg (fun hh => h1 (by rw [hh])), if_neg (fun hh => h2 (by rw [hh])),
        if_neg (fun hh => h3 (by rw [hh]))]
  · show (if s = "" then "UNKNOWN" else jsToUpper s) = jsToUpper s
    rw [if_neg hs]
  · unfold shiftStatus
    rw [h]

theorem c10_witness :
    riskBadgeClass none = "bg-slate-400" ∧
    riskBadgeClass (some "purple") = "bg-slate-400" ∧
    riskBadgeLabel (some "purple") = jsToUpper "purple" ∧
    (shiftStatus baseStore "w1").risk_state = none :=
  ⟨c10_riskbadge_total.1 none (by decide) (by decide) (by decide),
    c10_riskbadge_total.1 (some "purple") (by decide) (by decide) (by decide),
    c10_riskbadge_total.2.2.2.1 "purple" (by decide),
    c10_riskbadge_total.2.2.2.2 baseStore "w1" rfl⟩
